import Mathlib

/-!
Shallow embedding of `firepy/app/client.py` (class `RemoteClient`), a thin
HTTP client for a building-energy / life-cycle-cost simulation service.

Modelling conventions:
* The HTTP transport, the JSON parser, `pandas.read_json`, `dill.loads`,
  `dill.dumps`, `json.dumps`, `pprint.pformat` and `input()` are external
  collaborators; they are modelled as components of an environment `Env`.
  The n-th HTTP request issued during one method call receives the response
  `Env.resp n` (an arbitrary response stream, so any server behaviour is
  representable).
* Each method is a pure function of the client record, the environment and
  its arguments.  It returns a `MethodOut` bundle: the (unchanged) `self`
  record mirroring Python's mutable `self`, the Python-level result
  (a returned value or an uncaught exception), the ordered list of HTTP
  requests issued, and the list of response-decoding attempts made.
* Python exception classes relevant to the `try/except` blocks are
  enumerated in `PyExc`; the subclass relation used by `except` clauses is
  `instanceOf` (`json.JSONDecodeError` subclasses `ValueError`;
  `dill.UnpicklingError` and `EOFError` do not).
* Client-side serialized payloads (`dill.dumps` of models, parameter sets,
  calculation objects; data frames read from csv) are opaque: the objects
  are `Nat` handles and the environment turns a handle into bytes.
* Query-parameter values are `QV` (string, number, Python `None`, or a list
  of strings); numbers are modelled as integers — no claim depends on
  floating-point arithmetic.
-/

/-- `charsPre p s` holds when the char list `p` is an initial segment of
`s` (structural recursion, so it evaluates inside the kernel). -/
def charsPre : List Char → List Char → Bool
  | [], _ => true
  | _ :: _, [] => false
  | p :: ps, c :: cs => decide (p = c) && charsPre ps cs

/-- Python `s.startswith(pre)`. -/
def strStarts (s pre : String) : Bool := charsPre pre.data s.data

/-- Python `s.replace('\r\n', '\n')`: non-overlapping left-to-right
replacement of the two-character Windows newline by the Unix one. -/
def replaceCR : List Char → List Char
  | [] => []
  | '\r' :: '\n' :: rest => '\n' :: replaceCR rest
  | c :: rest => c :: replaceCR rest

/-- HTTP method of a request issued through the `requests` library. -/
inductive Meth where
  | get
  | post
deriving DecidableEq

/-- A query-parameter value as passed in the `params=` dict of a request. -/
inductive QV where
  | str (s : String)
  | num (n : Int)
  | none
  | list (l : List String)
deriving DecidableEq

/-- Request body as passed in the `data=` argument (absent, text, or bytes). -/
inductive Body where
  | empty
  | text (s : String)
  | bytes (b : List Nat)
deriving DecidableEq

/-- One HTTP request as handed to `requests.get` / `requests.post`. -/
structure Request where
  meth : Meth
  url : String
  params : List (String × QV)
  body : Body
deriving DecidableEq

/-- Python exception (instances that can arise from the decoding calls). -/
inductive PyExc where
  | valueError
  | jsonDecodeError
  | unpicklingError
  | eofError
  | attributeError
deriving DecidableEq

/-- Exception classes named in the `except` clauses of the source file. -/
inductive ExcClass where
  | valueError
  | jsonDecodeError
  | unpicklingError
deriving DecidableEq

/-- Python `isinstance` for the classes above: `json.JSONDecodeError`
subclasses `ValueError`; `dill.UnpicklingError` (= `pickle.UnpicklingError`)
and `EOFError` subclass neither of the other two. -/
def instanceOf : PyExc → ExcClass → Bool
  | .valueError, .valueError => true
  | .jsonDecodeError, .valueError => true
  | .jsonDecodeError, .jsonDecodeError => true
  | .unpicklingError, .unpicklingError => true
  | _, _ => false

/-- A Python value as returned from a method (decoded JSON, data frames and
deserialized domain objects are opaque `obj` handles or structured dict/list
values; `none` is Python `None`). -/
inductive PyVal where
  | none
  | str (s : String)
  | obj (n : Nat)
  | pyList (l : List PyVal)
  | pyDict (l : List (String × PyVal))

/-- Outcome of a Python call: a returned value or an uncaught exception
propagating out. -/
inductive PyResult where
  | value (v : PyVal)
  | raised (e : PyExc)

/-- The kind of response decoding attempted by a method, per the spec's
three kinds. -/
inductive DecodeKind where
  | json
  | tabular
  | object
deriving DecidableEq

/-- An HTTP response as seen by the client: its text, the outcome of
`response.json()` (the parse is external), and its raw byte content. -/
structure Response where
  text : String
  json : Except PyExc PyVal
  content : List Nat

/-- External world: the response stream, the external decoding/encoding
functions and the interactive input. -/
structure Env where
  resp : Nat → Response
  readJsonSplit : PyVal → Except PyExc PyVal
  dillLoads : List Nat → Except PyExc PyVal
  dillDumps : Nat → List Nat
  jsonDumps : Nat → String
  pformat : List (String × String) → String
  stdin : String

/-- The client state: fields assigned in `RemoteClient.__init__`. -/
structure Client where
  host : String
  port : Int
  url : String

/-- `RemoteClient.__init__`: stores host and port and formats
`'{host}:{port}'`. -/
def mkClient (host : String) (port : Int) : Client :=
  { host := host, port := port, url := host ++ ":" ++ toString port }

/-- Output bundle of one method invocation: the `self` record after the
call, the Python result, the ordered trace of HTTP requests issued, and the
decode attempts made. -/
structure MethodOut where
  self : Client
  ret : PyResult
  trace : List Request
  decodes : List DecodeKind

/-- Python `try: return <outcome> except <cls>: return <fallback>`:
a successful outcome is returned; an exception instance of `cls` yields the
fallback value; any other exception propagates. -/
def tryExcept (outcome : Except PyExc PyVal) (cls : ExcClass) (fallback : PyVal) : PyResult :=
  match outcome with
  | .ok v => .value v
  | .error e => if instanceOf e cls then .value fallback else .raised e

/-- First-match association-list lookup (the mapping view of a params dict). -/
def alookup (l : List (String × QV)) (k : String) : Option QV :=
  match l with
  | [] => Option.none
  | (k1, v1) :: rest => if k1 = k then some v1 else alookup rest k

/-- Value of key `k` after `dict.update(upd)` when the old value was `v`. -/
def updVal (upd : List (String × QV)) (k : String) (v : QV) : QV :=
  match alookup upd k with
  | some w => w
  | Option.none => v

/-- Python `dict.update`: existing keys keep their position and take the
updating value; new keys are appended in order. -/
def dictUpdate (base upd : List (String × QV)) : List (String × QV) :=
  base.map (fun kv => (kv.1, updVal upd kv.1 kv.2))
    ++ upd.filter (fun kv => (alookup base kv.1).isNone)

/-- A possibly-`None` string argument as a query-parameter value. -/
def qvOfOpt : Option String → QV
  | Option.none => QV.none
  | some s => QV.str s

namespace RemoteClient

/-- `RemoteClient.calculate`: GET `/calculate` with params
`{'name': name} | parameters`; `try: return response.json()
except ValueError: return response.text`. -/
def calculate (c : Client) (env : Env) (name : String)
    (parameters : List (String × QV)) : MethodOut :=
  let url := c.url ++ "/calculate"
  let payload := dictUpdate [("name", QV.str name)] parameters
  let response := env.resp 0
  { self := c
    ret := tryExcept response.json .valueError (.str response.text)
    trace := [⟨.get, url, payload, .empty⟩]
    decodes := [.json] }

/-- `RemoteClient.status`: GET `/status` with no params; JSON decode caught
as `ValueError`. -/
def status (c : Client) (env : Env) : MethodOut :=
  let url := c.url ++ "/status"
  let response := env.resp 0
  { self := c
    ret := tryExcept response.json .valueError (.str response.text)
    trace := [⟨.get, url, [], .empty⟩]
    decodes := [.json] }

/-- `RemoteClient.results`: GET `/results`;
`pd.read_json(response.json(), orient='split')` caught as
`json.JSONDecodeError`. -/
def results (c : Client) (env : Env) (name : String) : MethodOut :=
  let url := c.url ++ "/results"
  let response := env.resp 0
  { self := c
    ret := tryExcept (response.json.bind env.readJsonSplit) .jsonDecodeError
      (.str response.text)
    trace := [⟨.get, url, [("name", QV.str name)], .empty⟩]
    decodes := [.tabular] }

/-- `RemoteClient.cleanup`: prompts for confirmation; only on the exact
input `'y'` it issues GET `/cleanup` and returns `response.text`; otherwise
it issues nothing and falls through returning `None`. -/
def cleanup (c : Client) (env : Env) (name : String)
    (target : Option String) : MethodOut :=
  let url := c.url ++ "/cleanup"
  if env.stdin = "y" then
    let response := env.resp 0
    { self := c
      ret := .value (.str response.text)
      trace := [⟨.get, url, [("name", QV.str name), ("target", qvOfOpt target)], .empty⟩]
      decodes := [] }
  else
    { self := c, ret := .value .none, trace := [], decodes := [] }

/-- `RemoteClient.reinstate`: GET `/reinstate` with params
`{'name': name, 'id': calc_id}`; JSON decode caught as
`json.JSONDecodeError`. -/
def reinstate (c : Client) (env : Env) (name : String)
    (calc_id : String) : MethodOut :=
  let url := c.url ++ "/reinstate"
  let response := env.resp 0
  { self := c
    ret := tryExcept response.json .jsonDecodeError (.str response.text)
    trace := [⟨.get, url, [("name", QV.str name), ("id", QV.str calc_id)], .empty⟩]
    decodes := [.json] }

/-- `RemoteClient.instate`: params `{'name': name} | parameters`; POST with
`data=json.dumps(options)` when options are given, GET otherwise; JSON
decode caught as `json.JSONDecodeError`. -/
def instate (c : Client) (env : Env) (name : String)
    (parameters : List (String × QV)) (options : Option Nat) : MethodOut :=
  let url := c.url ++ "/instate"
  let payload := dictUpdate [("name", QV.str name)] parameters
  let req : Request :=
    match options with
    | some o => ⟨.post, url, payload, .text (env.jsonDumps o)⟩
    | Option.none => ⟨.get, url, payload, .empty⟩
  let response := env.resp 0
  { self := c
    ret := tryExcept response.json .jsonDecodeError (.str response.text)
    trace := [req]
    decodes := [.json] }

/-- `RemoteClient.get_model`: GET `/model`; `dill.loads(response.content)`
caught as `dill.UnpicklingError`. -/
def get_model (c : Client) (env : Env) (name : String) : MethodOut :=
  let url := c.url ++ "/model"
  let response := env.resp 0
  { self := c
    ret := tryExcept (env.dillLoads response.content) .unpicklingError
      (.str response.text)
    trace := [⟨.get, url, [("name", QV.str name)], .empty⟩]
    decodes := [.object] }

/-- `RemoteClient.get_params`: GET `/parameters`; JSON decode caught as
`json.JSONDecodeError`. -/
def get_params (c : Client) (env : Env) (name : String) : MethodOut :=
  let url := c.url ++ "/parameters"
  let response := env.resp 0
  { self := c
    ret := tryExcept response.json .jsonDecodeError (.str response.text)
    trace := [⟨.get, url, [("name", QV.str name)], .empty⟩]
    decodes := [.json] }

/-- Python `param_dict.values()` as used in `get_full_params`: listing the
values of a dict; on a non-dict object the attribute access raises. -/
def pyValues : PyVal → Except PyExc PyVal
  | .pyDict l => .ok (.pyList (l.map Prod.snd))
  | _ => .error .attributeError

/-- `RemoteClient.get_full_params`: GET `/parameters/full`;
`dill.loads(response.content)` then the list comprehension over
`param_dict.values()`, caught as `dill.UnpicklingError`. -/
def get_full_params (c : Client) (env : Env) (name : String) : MethodOut :=
  let url := c.url ++ "/parameters/full"
  let response := env.resp 0
  { self := c
    ret := tryExcept ((env.dillLoads response.content).bind pyValues)
      .unpicklingError (.str response.text)
    trace := [⟨.get, url, [("name", QV.str name)], .empty⟩]
    decodes := [.object] }

/-- `RemoteClient.get_lca`: GET `/lca`; `dill.loads` caught as
`dill.UnpicklingError`. -/
def get_lca (c : Client) (env : Env) (name : String) : MethodOut :=
  let url := c.url ++ "/lca"
  let response := env.resp 0
  { self := c
    ret := tryExcept (env.dillLoads response.content) .unpicklingError
      (.str response.text)
    trace := [⟨.get, url, [("name", QV.str name)], .empty⟩]
    decodes := [.object] }

/-- `RemoteClient.get_cost`: GET `/cost`; `dill.loads` caught as
`dill.UnpicklingError`. -/
def get_cost (c : Client) (env : Env) (name : String) : MethodOut :=
  let url := c.url ++ "/cost"
  let response := env.resp 0
  { self := c
    ret := tryExcept (env.dillLoads response.content) .unpicklingError
      (.str response.text)
    trace := [⟨.get, url, [("name", QV.str name)], .empty⟩]
    decodes := [.object] }

/-- `RemoteClient.get_energy`: GET `/energy` with the default variables
filled in when omitted; tabular decode caught as `json.JSONDecodeError`. -/
def get_energy (c : Client) (env : Env) (name : String)
    (calc_id : Option String) (vbls : Option (List String))
    (typ : String := "zone") (period : String := "runperiod") : MethodOut :=
  let url := c.url ++ "/energy"
  let vars :=
    match vbls with
    | Option.none => ["heating", "cooling", "lights"]
    | some v => v
  let response := env.resp 0
  { self := c
    ret := tryExcept (response.json.bind env.readJsonSplit) .jsonDecodeError
      (.str response.text)
    trace := [⟨.get, url,
      [("name", QV.str name), ("id", qvOfOpt calc_id),
       ("variables", QV.list vars), ("type", QV.str typ),
       ("period", QV.str period)], .empty⟩]
    decodes := [.tabular] }

/-- `RemoteClient.get_energy_detailed`: GET `/energy/detailed`; tabular
decode caught as `json.JSONDecodeError`. -/
def get_energy_detailed (c : Client) (env : Env) (name : String)
    (calc_id : String) (varbl : String) (typ : String)
    (period : String) : MethodOut :=
  let url := c.url ++ "/energy/detailed"
  let response := env.resp 0
  { self := c
    ret := tryExcept (response.json.bind env.readJsonSplit) .jsonDecodeError
      (.str response.text)
    trace := [⟨.get, url,
      [("name", QV.str name), ("id", QV.str calc_id),
       ("variable", QV.str varbl), ("type", QV.str typ),
       ("period", QV.str period)], .empty⟩]
    decodes := [.tabular] }

end RemoteClient

/-- Arguments of `RemoteClient.setup` (defaults as in the source).  `epw` is
the text read from the epw file; `idf` is the `idf.idfstr()` text;
`weather_data` (the data frame read from the csv), `model`, `parameters`,
`lca_calculation` and `cost_calculation` are opaque object handles whose
`dill.dumps` bytes the environment supplies. -/
structure SetupArgs where
  name : String
  epw : Option String := Option.none
  weather_data : Option Nat := Option.none
  idf : Option String := Option.none
  model : Option Nat := Option.none
  parameters : Option Nat := Option.none
  lca_calculation : Option Nat := Option.none
  cost_calculation : Option Nat := Option.none
  energy_calculation : Option String := Option.none
  init_db : Bool := true

/-- The one-or-zero requests contributed by one optional argument of
`setup`. -/
def optStep {α : Type} (o : Option α) (f : α → Request × String) :
    List (Request × String) :=
  match o with
  | Option.none => []
  | some a => [f a]

/-- The component requests of `setup` before the `energy_calculation`
block, in source order, each present exactly when its argument is supplied
(the database request whenever `init_db` is true); paired with the key
under which its success message is recorded. -/
def setupSteps (c : Client) (env : Env) (a : SetupArgs) :
    List (Request × String) :=
  let url := c.url ++ "/setup"
  optStep a.epw (fun t =>
      (⟨.post, url, [("name", QV.str a.name), ("type", QV.str "epw")],
        .text (String.mk (replaceCR t.data))⟩, "epw"))
    ++ optStep a.weather_data (fun w =>
      (⟨.post, url, [("name", QV.str a.name), ("type", QV.str "weather_data")],
        .bytes (env.dillDumps w)⟩, "weather"))
    ++ optStep a.idf (fun t =>
      (⟨.post, url, [("name", QV.str a.name), ("type", QV.str "idf")],
        .text t⟩, "idf"))
    ++ optStep a.model (fun m =>
      (⟨.post, url, [("name", QV.str a.name), ("type", QV.str "model")],
        .bytes (env.dillDumps m)⟩, "model"))
    ++ optStep a.parameters (fun p =>
      (⟨.post, url, [("name", QV.str a.name), ("type", QV.str "parameters")],
        .bytes (env.dillDumps p)⟩, "parameters"))
    ++ optStep a.lca_calculation (fun l =>
      (⟨.post, url, [("name", QV.str a.name), ("type", QV.str "lca_calculation")],
        .bytes (env.dillDumps l)⟩, "LCA Calculation"))
    ++ optStep a.cost_calculation (fun k =>
      (⟨.post, url, [("name", QV.str a.name), ("type", QV.str "cost_calculation")],
        .bytes (env.dillDumps k)⟩, "Cost Calculation"))
    ++ (if a.init_db then
      [(⟨.post, url, [("name", QV.str a.name), ("type", QV.str "database")],
        .empty⟩, "Database")]
    else [])

/-- Runs the component requests in order starting at response index `idx`:
each request is issued, and at the first response whose text does not start
with `'OK'` the run stops with that text (`Sum.inl`); otherwise it records
the success message under the step's key and continues, ending with the
next response index and the success list (`Sum.inr`).  The first component
is the trace of requests actually issued. -/
def runSteps (env : Env) (idx : Nat) :
    List (Request × String) →
      List Request × (String ⊕ (Nat × List (String × String)))
  | [] => ([], Sum.inr (idx, []))
  | (req, key) :: rest =>
    let t := (env.resp idx).text
    if strStarts t "OK" then
      let r := runSteps env (idx + 1) rest
      (req :: r.1,
        match r.2 with
        | Sum.inl s => Sum.inl s
        | Sum.inr (i, suc) => Sum.inr (i, (key, t) :: suc))
    else ([req], Sum.inl t)

/-- The fixed validation message of `setup` for an unrecognized
`energy_calculation` value. -/
def energyTypeMsg : String :=
  "Energy calculation type can be one of the following: simulation / steady_state"

/-- The request of the `energy_calculation` component of `setup`. -/
def energyReq (c : Client) (a : SetupArgs) (ec : String) : Request :=
  ⟨.post, c.url ++ "/setup",
    [("name", QV.str a.name), ("type", QV.str "energy_calculation"),
     ("mode", QV.str ec)], .empty⟩

/-- The trailing `energy_calculation` block of `setup`: skipped when the
argument is falsy (absent or empty); an unrecognized value returns the
fixed message without a request; otherwise the energy request is issued and
handled like the earlier components, and on success the method returns a
newline followed by `pformat` of the success dict. -/
def setupEnergy (c : Client) (env : Env) (a : SetupArgs) (tr : List Request)
    (idx : Nat) (suc : List (String × String)) : MethodOut :=
  let done : MethodOut :=
    { self := c, ret := .value (.str ("\n" ++ env.pformat suc)),
      trace := tr, decodes := [] }
  match a.energy_calculation with
  | Option.none => done
  | some ec =>
    if ec = "" then done
    else if ec ∉ (["simulation", "steady_state"] : List String) then
      { self := c, ret := .value (.str energyTypeMsg), trace := tr, decodes := [] }
    else
      let req : Request := energyReq c a ec
      let t := (env.resp idx).text
      if strStarts t "OK" then
        { self := c
          ret := .value (.str ("\n" ++
            env.pformat (suc ++ [("Energy Calculation", t)])))
          trace := tr ++ [req], decodes := [] }
      else
        { self := c, ret := .value (.str t), trace := tr ++ [req], decodes := [] }

/-- `RemoteClient.setup`: issues the component requests in source order,
returning the first non-`'OK'` response text immediately; when they all
succeed, the `energy_calculation` block runs last. -/
def RemoteClient.setup (c : Client) (env : Env) (a : SetupArgs) : MethodOut :=
  match runSteps env 0 (setupSteps c env a) with
  | (tr, Sum.inl t) =>
    { self := c, ret := .value (.str t), trace := tr, decodes := [] }
  | (tr, Sum.inr (idx, suc)) => setupEnergy c env a tr idx suc

/-- The fourteen public request methods of `RemoteClient`, one constructor
per `def` in the class. -/
inductive Method where
  | setup
  | calculate
  | status
  | results
  | cleanup
  | reinstate
  | instate
  | get_model
  | get_params
  | get_full_params
  | get_lca
  | get_cost
  | get_energy
  | get_energy_detailed
deriving DecidableEq

/-- All public request methods, in source order. -/
def allMethods : List Method :=
  [.setup, .calculate, .status, .results, .cleanup, .reinstate, .instate,
   .get_model, .get_params, .get_full_params, .get_lca, .get_cost,
   .get_energy, .get_energy_detailed]

/-- The fixed endpoint path each method appends to `self.url`. -/
def Method.endpoint : Method → String
  | .setup => "/setup"
  | .calculate => "/calculate"
  | .status => "/status"
  | .results => "/results"
  | .cleanup => "/cleanup"
  | .reinstate => "/reinstate"
  | .instate => "/instate"
  | .get_model => "/model"
  | .get_params => "/parameters"
  | .get_full_params => "/parameters/full"
  | .get_lca => "/lca"
  | .get_cost => "/cost"
  | .get_energy => "/energy"
  | .get_energy_detailed => "/energy/detailed"

/-- The endpoint family named by the spec. -/
def endpointFamily : List String :=
  ["/setup", "/calculate", "/status", "/results", "/cleanup", "/reinstate",
   "/instate", "/model", "/parameters", "/parameters/full", "/lca", "/cost",
   "/energy", "/energy/detailed"]

/-- An invocation of one public method with its arguments. -/
inductive Args where
  | setup (a : SetupArgs)
  | calculate (name : String) (parameters : List (String × QV))
  | status
  | results (name : String)
  | cleanup (name : String) (target : Option String)
  | reinstate (name : String) (calc_id : String)
  | instate (name : String) (parameters : List (String × QV)) (options : Option Nat)
  | get_model (name : String)
  | get_params (name : String)
  | get_full_params (name : String)
  | get_lca (name : String)
  | get_cost (name : String)
  | get_energy (name : String) (calc_id : Option String)
      (vbls : Option (List String)) (typ : String) (period : String)
  | get_energy_detailed (name : String) (calc_id : String) (varbl : String)
      (typ : String) (period : String)

/-- The method an invocation belongs to. -/
def Args.method : Args → Method
  | .setup _ => .setup
  | .calculate _ _ => .calculate
  | .status => .status
  | .results _ => .results
  | .cleanup _ _ => .cleanup
  | .reinstate _ _ => .reinstate
  | .instate _ _ _ => .instate
  | .get_model _ => .get_model
  | .get_params _ => .get_params
  | .get_full_params _ => .get_full_params
  | .get_lca _ => .get_lca
  | .get_cost _ => .get_cost
  | .get_energy _ _ _ _ _ => .get_energy
  | .get_energy_detailed _ _ _ _ _ => .get_energy_detailed

/-- Uniform dispatch: run one public-method invocation. -/
def run (c : Client) (env : Env) : Args → MethodOut
  | .setup a => RemoteClient.setup c env a
  | .calculate name parameters => RemoteClient.calculate c env name parameters
  | .status => RemoteClient.status c env
  | .results name => RemoteClient.results c env name
  | .cleanup name target => RemoteClient.cleanup c env name target
  | .reinstate name calc_id => RemoteClient.reinstate c env name calc_id
  | .instate name parameters options => RemoteClient.instate c env name parameters options
  | .get_model name => RemoteClient.get_model c env name
  | .get_params name => RemoteClient.get_params c env name
  | .get_full_params name => RemoteClient.get_full_params c env name
  | .get_lca name => RemoteClient.get_lca c env name
  | .get_cost name => RemoteClient.get_cost c env name
  | .get_energy name calc_id vbls typ period =>
    RemoteClient.get_energy c env name calc_id vbls typ period
  | .get_energy_detailed name calc_id varbl typ period =>
    RemoteClient.get_energy_detailed c env name calc_id varbl typ period

/-- The `'type'` query parameter of a request (the discriminator of the
`setup` component requests). -/
def reqType (r : Request) : Option QV :=
  alookup r.params "type"

/-- The `'type'` values of the pre-energy `setup` components, in source
order. -/
def canonTypes : List (Option QV) :=
  [some (QV.str "epw"), some (QV.str "weather_data"), some (QV.str "idf"),
   some (QV.str "model"), some (QV.str "parameters"),
   some (QV.str "lca_calculation"), some (QV.str "cost_calculation"),
   some (QV.str "database")]

/-- The success dict accumulated by a fully successful run of the component
steps starting at response index `idx`: each step's key paired with its
response text. -/
def successList (env : Env) (idx : Nat) : List (Request × String) → List (String × String)
  | [] => []
  | (_, key) :: rest => (key, (env.resp idx).text) :: successList env (idx + 1) rest

/-- The decode attempts the spec assigns to each method: one of the three
kinds for the twelve decoding methods, none for `setup` and `cleanup`. -/
def Method.decodeKinds : Method → List DecodeKind
  | .setup => []
  | .cleanup => []
  | .calculate => [.json]
  | .status => [.json]
  | .reinstate => [.json]
  | .instate => [.json]
  | .get_params => [.json]
  | .results => [.tabular]
  | .get_energy => [.tabular]
  | .get_energy_detailed => [.tabular]
  | .get_model => [.object]
  | .get_full_params => [.object]
  | .get_lca => [.object]
  | .get_cost => [.object]

/-- Concrete client fixture. -/
def cW : Client := mkClient "http://localhost" 9091

/-- A response whose text reports success. -/
def respOK : Response := { text := "OK", json := Except.ok PyVal.none, content := [] }

/-- An environment where every request succeeds and the confirmation input
is `'y'`. -/
def envOK : Env :=
  { resp := fun _ => respOK
    readJsonSplit := fun _ => Except.ok PyVal.none
    dillLoads := fun _ => Except.ok PyVal.none
    dillDumps := fun _ => []
    jsonDumps := fun _ => ""
    pformat := fun _ => ""
    stdin := "y" }

/-- The success environment with the confirmation input `'n'`. -/
def envNo : Env := { envOK with stdin := "n" }

/-- An environment whose responses defeat every decoding: `response.json()`
raises `ValueError` and `dill.loads` of the (empty) content raises
`EOFError`, as `pickle` does on truncated input. -/
def envEOF : Env :=
  { envOK with
    resp := fun _ =>
      { text := "server error", json := Except.error PyExc.valueError, content := [] }
    dillLoads := fun _ => Except.error PyExc.eofError }

/-- `setup` arguments with nothing supplied, no database initialization and
an unrecognized `energy_calculation` value. -/
def saInv : SetupArgs :=
  { name := "x", energy_calculation := some "invalid", init_db := false }

/-- `setup` arguments with only the (default) database initialization and an
unrecognized `energy_calculation` value. -/
def saW : SetupArgs :=
  { name := "x", energy_calculation := some "bogus" }

/-! ## Helper lemmas -/

theorem setupEnergy_self (c : Client) (env : Env) (a : SetupArgs)
    (tr : List Request) (idx : Nat) (suc : List (String × String)) :
    (setupEnergy c env a tr idx suc).self = c := by
  unfold setupEnergy
  cases hec : a.energy_calculation with
  | none => rfl
  | some ec =>
    dsimp only
    split_ifs <;> rfl

theorem setupEnergy_decodes (c : Client) (env : Env) (a : SetupArgs)
    (tr : List Request) (idx : Nat) (suc : List (String × String)) :
    (setupEnergy c env a tr idx suc).decodes = [] := by
  unfold setupEnergy
  cases hec : a.energy_calculation with
  | none => rfl
  | some ec =>
    dsimp only
    split_ifs <;> rfl

theorem setup_self (c : Client) (env : Env) (a : SetupArgs) :
    (RemoteClient.setup c env a).self = c := by
  unfold RemoteClient.setup
  rcases hr : runSteps env 0 (setupSteps c env a) with ⟨tr, r⟩
  rcases r with t | ⟨i, suc⟩
  · rfl
  · exact setupEnergy_self c env a tr i suc

theorem setup_decodes (c : Client) (env : Env) (a : SetupArgs) :
    (RemoteClient.setup c env a).decodes = [] := by
  unfold RemoteClient.setup
  rcases hr : runSteps env 0 (setupSteps c env a) with ⟨tr, r⟩
  rcases r with t | ⟨i, suc⟩
  · rfl
  · exact setupEnergy_decodes c env a tr i suc

theorem cleanup_self (c : Client) (env : Env) (name : String)
    (target : Option String) :
    (RemoteClient.cleanup c env name target).self = c := by
  by_cases h : env.stdin = "y" <;> simp [RemoteClient.cleanup, h]

theorem cleanup_decodes (c : Client) (env : Env) (name : String)
    (target : Option String) :
    (RemoteClient.cleanup c env name target).decodes = [] := by
  by_cases h : env.stdin = "y" <;> simp [RemoteClient.cleanup, h]

/-- The trace of `cleanup`: the single request on confirmation, nothing
otherwise. -/
theorem cleanup_trace (c : Client) (env : Env) (name : String)
    (target : Option String) :
    (RemoteClient.cleanup c env name target).trace =
      if env.stdin = "y" then
        [⟨.get, c.url ++ "/cleanup",
          [("name", QV.str name), ("target", qvOfOpt target)], .empty⟩]
      else [] := by
  by_cases h : env.stdin = "y" <;> simp [RemoteClient.cleanup, h]

theorem run_self (c : Client) (env : Env) (a : Args) : (run c env a).self = c := by
  cases a
  case setup sa => exact setup_self c env sa
  case cleanup name target => exact cleanup_self c env name target
  all_goals rfl

theorem run_decodes (c : Client) (env : Env) (a : Args) :
    (run c env a).decodes = a.method.decodeKinds := by
  cases a
  case setup sa => exact setup_decodes c env sa
  case cleanup name target => exact cleanup_decodes c env name target
  all_goals rfl

theorem optStep_mem_iff {α : Type} (o : Option α) (f : α → Request × String)
    (x : Request × String) :
    x ∈ optStep o f ↔ ∃ b, o = some b ∧ x = f b := by
  cases o <;> simp [optStep]

theorem setupSteps_url (c : Client) (env : Env) (a : SetupArgs) :
    ∀ x ∈ setupSteps c env a, x.1.url = c.url ++ "/setup" := by
  intro x hx
  simp only [setupSteps, List.mem_append, optStep_mem_iff] at hx
  rcases hx with ((((((⟨t, _, rfl⟩ | ⟨w, _, rfl⟩) | ⟨t, _, rfl⟩) | ⟨m, _, rfl⟩) |
      ⟨p, _, rfl⟩) | ⟨l, _, rfl⟩) | ⟨k, _, rfl⟩) | h
  · rfl
  · rfl
  · rfl
  · rfl
  · rfl
  · rfl
  · rfl
  · split at h
    · simp at h
      subst h
      rfl
    · simp at h

theorem runSteps_trace_take (env : Env) (steps : List (Request × String)) :
    ∀ idx, ∃ n, n ≤ steps.length ∧
      (runSteps env idx steps).1 = (steps.take n).map Prod.fst := by
  induction steps with
  | nil => exact fun idx => ⟨0, by simp [runSteps]⟩
  | cons hd tl ih =>
    intro idx
    obtain ⟨req, key⟩ := hd
    by_cases h : strStarts (env.resp idx).text "OK" = true
    · obtain ⟨n, hn, htr⟩ := ih (idx + 1)
      refine ⟨n + 1, by simpa using hn, ?_⟩
      simp [runSteps, h, htr]
    · refine ⟨1, by simp, ?_⟩
      simp [runSteps, h]

theorem runSteps_mem_trace (env : Env) (idx : Nat)
    (steps : List (Request × String)) (r : Request)
    (hr : r ∈ (runSteps env idx steps).1) : r ∈ steps.map Prod.fst := by
  obtain ⟨n, _, htr⟩ := runSteps_trace_take env steps idx
  rw [htr] at hr
  exact List.Sublist.mem hr ((List.take_sublist n steps).map Prod.fst)

theorem setup_trace_cases (c : Client) (env : Env) (a : SetupArgs) :
    (RemoteClient.setup c env a).trace = (runSteps env 0 (setupSteps c env a)).1 ∨
    ∃ ec, (RemoteClient.setup c env a).trace =
      (runSteps env 0 (setupSteps c env a)).1 ++ [energyReq c a ec] := by
  unfold RemoteClient.setup
  rcases hr : runSteps env 0 (setupSteps c env a) with ⟨tr, r⟩
  rcases r with t | ⟨i, suc⟩
  · left
    rfl
  · unfold setupEnergy
    cases hec : a.energy_calculation with
    | none => left; rfl
    | some ec =>
      dsimp only
      split_ifs <;>
        first
          | (left; rfl)
          | (right; exact ⟨ec, rfl⟩)

theorem trace_url (c : Client) (env : Env) (a : Args) :
    ∀ r ∈ (run c env a).trace, r.url = c.url ++ a.method.endpoint := by
  cases a
  case setup sa =>
    intro r hr
    simp only [run] at hr
    rcases setup_trace_cases c env sa with h | ⟨ec, h⟩
    · rw [h] at hr
      obtain ⟨x, hx, rfl⟩ := List.mem_map.mp (runSteps_mem_trace env 0 _ r hr)
      exact setupSteps_url c env sa x hx
    · rw [h] at hr
      rcases List.mem_append.mp hr with h8 | he
      · obtain ⟨x, hx, rfl⟩ := List.mem_map.mp (runSteps_mem_trace env 0 _ r h8)
        exact setupSteps_url c env sa x hx
      · simp at he
        subst he
        rfl
  case cleanup name target =>
    intro r hr
    simp only [run] at hr
    rw [cleanup_trace] at hr
    by_cases h : env.stdin = "y"
    · rw [if_pos h] at hr
      simp at hr
      subst hr
      rfl
    · rw [if_neg h] at hr
      simp at hr
  case instate name ps opts =>
    intro r hr
    cases opts <;> simp [run, RemoteClient.instate] at hr <;> subst hr <;> rfl
  case calculate name ps =>
    intro r hr
    simp [run, RemoteClient.calculate] at hr
    subst hr
    rfl
  all_goals
    intro r hr
    simp [run, RemoteClient.status, RemoteClient.results, RemoteClient.reinstate,
      RemoteClient.get_model, RemoteClient.get_params, RemoteClient.get_full_params,
      RemoteClient.get_lca, RemoteClient.get_cost, RemoteClient.get_energy,
      RemoteClient.get_energy_detailed] at hr
    subst hr
    rfl

/-! ## Claim theorems -/

/-- C5: no public method modifies the client's state: after any invocation
of any method the `self` record (its `host`, `port` and `url` fields) is
exactly the one built by `__init__`, which sets `host`, `port` and
`url = '\x7bhost\x7d:\x7bport\x7d'`; no method writes state for another to
read. -/
theorem c5_state_immutable :
    (∀ (c : Client) (env : Env) (a : Args), (run c env a).self = c) ∧
    (∀ (host : String) (port : Int),
      (mkClient host port).host = host ∧ (mkClient host port).port = port ∧
      (mkClient host port).url = host ++ ":" ++ toString port) :=
  ⟨fun c env a => run_self c env a, fun _ _ => ⟨rfl, rfl, rfl⟩⟩

/-- C4 counterexample: the claim says every public method attempts exactly
one decoding on every invocation, but `cleanup` (here declined with input
`'n'`) attempts none. -/
theorem c4_counterexample :
    ¬ ((run cW envNo (Args.cleanup "x" Option.none)).decodes.length = 1) := by
  decide

/-- C4 (amended): every public method except `setup` and `cleanup` attempts
exactly one decoding per invocation — JSON for `calculate`, `status`,
`reinstate`, `instate`, `get_params`; tabular for `results`, `get_energy`,
`get_energy_detailed`; object deserialization for `get_model`,
`get_full_params`, `get_lca`, `get_cost` — while `setup` and `cleanup`
attempt none. -/
theorem c4_decode_kinds :
    (∀ (c : Client) (env : Env) (a : Args),
      (run c env a).decodes = a.method.decodeKinds) ∧
    (∀ m : Method, m ≠ .setup → m ≠ .cleanup → m.decodeKinds.length = 1) ∧
    Method.setup.decodeKinds = [] ∧ Method.cleanup.decodeKinds = [] := by
  refine ⟨fun c env a => run_decodes c env a, ?_, rfl, rfl⟩
  intro m h1 h2
  cases m
  case setup => exact absurd rfl h1
  case cleanup => exact absurd rfl h2
  all_goals rfl

/-- C4 witness: `get_lca` on a concrete invocation makes exactly one decode
attempt, of the object-deserialization kind. -/
theorem c4_decode_kinds_witness :
    (run cW envOK (Args.get_lca "n")).decodes = Method.get_lca.decodeKinds ∧
    Method.get_lca.decodeKinds.length = 1 :=
  ⟨c4_decode_kinds.1 cW envOK (Args.get_lca "n"),
   c4_decode_kinds.2.1 Method.get_lca (by decide) (by decide)⟩

/-- C3 counterexample: the class does not expose thirteen public request
methods — `setup`, `calculate`, `status`, `results`, `cleanup`,
`reinstate`, `instate`, `get_model`, `get_params`, `get_full_params`,
`get_lca`, `get_cost`, `get_energy`, `get_energy_detailed` are fourteen. -/
theorem c3_counterexample : ¬ (allMethods.length = 13) := by decide

/-- C3 (amended): the file defines one class exposing fourteen public
request methods; each method targets exactly one fixed endpoint path, and
the fourteen methods hit exactly the fourteen paths of the endpoint
family, bijectively. -/
theorem c3_fourteen_methods :
    allMethods.length = 14 ∧ allMethods.Nodup ∧
    allMethods.map Method.endpoint = endpointFamily ∧ endpointFamily.Nodup ∧
    (∀ (c : Client) (env : Env) (a : Args),
      ∀ r ∈ (run c env a).trace, r.url = c.url ++ a.method.endpoint) :=
  ⟨by decide, by decide, by decide, by decide,
   fun c env a => trace_url c env a⟩

/-- C3 witness: the unique request of a concrete `get_lca` invocation is
addressed to the `/lca` endpoint appended to the client url. -/
theorem c3_fourteen_methods_witness :
    (⟨Meth.get, cW.url ++ "/lca", [("name", QV.str "n")], Body.empty⟩ : Request).url =
      cW.url ++ (Args.get_lca "n").method.endpoint :=
  c3_fourteen_methods.2.2.2.2 cW envOK (Args.get_lca "n") _ (by simp [run, RemoteClient.get_lca])

/-- C6: every HTTP request any method issues is addressed to the
concatenation of the url built by `__init__` from host and port with the
method's fixed endpoint path; arguments of the call never alter host, port
or path. -/
theorem c6_request_urls (host : String) (port : Int) (env : Env) (a : Args) :
    ∀ r ∈ (run (mkClient host port) env a).trace,
      r.url = host ++ ":" ++ toString port ++ a.method.endpoint := by
  intro r hr
  exact trace_url (mkClient host port) env a r hr

/-- C6 witness: the unique request of a concrete `status` invocation. -/
theorem c6_request_urls_witness :
    (⟨Meth.get, (mkClient "http://localhost" 9091).url ++ "/status", [],
        Body.empty⟩ : Request).url =
      "http://localhost" ++ ":" ++ toString (9091 : Int) ++ Args.status.method.endpoint :=
  c6_request_urls "http://localhost" 9091 envOK Args.status _
    (by simp [run, RemoteClient.status])

/-- C1 counterexample: `get_model` on a response with empty content, where
`dill.loads` raises `EOFError` (as `pickle` does on truncated input): the
decoding fails, but `except dill.UnpicklingError` does not catch
`EOFError`, so the method raises instead of returning `response.text`. -/
theorem c1_counterexample :
    envEOF.dillLoads (envEOF.resp 0).content = Except.error PyExc.eofError ∧
    (RemoteClient.get_model cW envEOF "demo").ret = PyResult.raised PyExc.eofError ∧
    (RemoteClient.get_model cW envEOF "demo").ret ≠
      PyResult.value (PyVal.str (envEOF.resp 0).text) := by
  refine ⟨rfl, rfl, ?_⟩
  intro h
  rw [show (RemoteClient.get_model cW envEOF "demo").ret =
    PyResult.raised PyExc.eofError from rfl] at h
  exact PyResult.noConfusion h

/-- C1 (amended): each decoding method returns `response.text` exactly when
its decoding fails with an exception instance of the class named in its
`except` clause — `ValueError` for `calculate` and `status`,
`json.JSONDecodeError` for `results`, `reinstate`, `instate`, `get_params`,
`get_energy` and `get_energy_detailed`, and `dill.UnpicklingError` for
`get_model`, `get_full_params`, `get_lca` and `get_cost`; a decoding
failure of any other exception class propagates out of the method. -/
theorem c1_decode_exception_classes (c : Client) (env : Env) (name : String)
    (ps : List (String × QV)) (calc_id : String) (options : Option Nat)
    (cid : Option String) (vb : Option (List String))
    (typ period varbl : String) (e : PyExc) :
    ((env.resp 0).json = Except.error e →
      (RemoteClient.calculate c env name ps).ret =
        (if instanceOf e ExcClass.valueError then
          PyResult.value (PyVal.str (env.resp 0).text) else PyResult.raised e)) ∧
    ((env.resp 0).json = Except.error e →
      (RemoteClient.status c env).ret =
        (if instanceOf e ExcClass.valueError then
          PyResult.value (PyVal.str (env.resp 0).text) else PyResult.raised e)) ∧
    ((env.resp 0).json.bind env.readJsonSplit = Except.error e →
      (RemoteClient.results c env name).ret =
        (if instanceOf e ExcClass.jsonDecodeError then
          PyResult.value (PyVal.str (env.resp 0).text) else PyResult.raised e)) ∧
    ((env.resp 0).json = Except.error e →
      (RemoteClient.reinstate c env name calc_id).ret =
        (if instanceOf e ExcClass.jsonDecodeError then
          PyResult.value (PyVal.str (env.resp 0).text) else PyResult.raised e)) ∧
    ((env.resp 0).json = Except.error e →
      (RemoteClient.instate c env name ps options).ret =
        (if instanceOf e ExcClass.jsonDecodeError then
          PyResult.value (PyVal.str (env.resp 0).text) else PyResult.raised e)) ∧
    ((env.resp 0).json = Except.error e →
      (RemoteClient.get_params c env name).ret =
        (if instanceOf e ExcClass.jsonDecodeError then
          PyResult.value (PyVal.str (env.resp 0).text) else PyResult.raised e)) ∧
    (env.dillLoads (env.resp 0).content = Except.error e →
      (RemoteClient.get_model c env name).ret =
        (if instanceOf e ExcClass.unpicklingError then
          PyResult.value (PyVal.str (env.resp 0).text) else PyResult.raised e)) ∧
    ((env.dillLoads (env.resp 0).content).bind RemoteClient.pyValues = Except.error e →
      (RemoteClient.get_full_params c env name).ret =
        (if instanceOf e ExcClass.unpicklingError then
          PyResult.value (PyVal.str (env.resp 0).text) else PyResult.raised e)) ∧
    (env.dillLoads (env.resp 0).content = Except.error e →
      (RemoteClient.get_lca c env name).ret =
        (if instanceOf e ExcClass.unpicklingError then
          PyResult.value (PyVal.str (env.resp 0).text) else PyResult.raised e)) ∧
    (env.dillLoads (env.resp 0).content = Except.error e →
      (RemoteClient.get_cost c env name).ret =
        (if instanceOf e ExcClass.unpicklingError then
          PyResult.value (PyVal.str (env.resp 0).text) else PyResult.raised e)) ∧
    ((env.resp 0).json.bind env.readJsonSplit = Except.error e →
      (RemoteClient.get_energy c env name cid vb typ period).ret =
        (if instanceOf e ExcClass.jsonDecodeError then
          PyResult.value (PyVal.str (env.resp 0).text) else PyResult.raised e)) ∧
    ((env.resp 0).json.bind env.readJsonSplit = Except.error e →
      (RemoteClient.get_energy_detailed c env name calc_id varbl typ period).ret =
        (if instanceOf e ExcClass.jsonDecodeError then
          PyResult.value (PyVal.str (env.resp 0).text) else PyResult.raised e)) := by
  refine ⟨?_, ?_, ?_, ?_, ?_, ?_, ?_, ?_, ?_, ?_, ?_, ?_⟩ <;>
    · intro h
      simp [RemoteClient.calculate, RemoteClient.status, RemoteClient.results,
        RemoteClient.reinstate, RemoteClient.instate, RemoteClient.get_params,
        RemoteClient.get_model, RemoteClient.get_full_params, RemoteClient.get_lca,
        RemoteClient.get_cost, RemoteClient.get_energy,
        RemoteClient.get_energy_detailed, tryExcept, h]

/-- C1 witness: `calculate` on a response whose JSON decoding fails with
`ValueError` returns the response text (the caught-class case). -/
theorem c1_decode_exception_classes_witness :
    (envEOF.resp 0).json = Except.error PyExc.valueError ∧
    (RemoteClient.calculate cW envEOF "demo" []).ret =
      (if instanceOf PyExc.valueError ExcClass.valueError then
        PyResult.value (PyVal.str (envEOF.resp 0).text)
      else PyResult.raised PyExc.valueError) :=
  ⟨rfl, (c1_decode_exception_classes cW envEOF "demo" [] "" Option.none
      Option.none Option.none "" "" "" PyExc.valueError).1 rfl⟩

/-- C9: `cleanup` issues its HTTP request and returns the server's response
text exactly when the confirmation input is the string `'y'`; on any other
input it issues no request and returns Python `None` (despite the `str`
annotation). -/
theorem c9_cleanup_confirmation (c : Client) (env : Env) (name : String)
    (target : Option String) :
    (env.stdin = "y" →
      (RemoteClient.cleanup c env name target).trace =
        [⟨.get, c.url ++ "/cleanup",
          [("name", QV.str name), ("target", qvOfOpt target)], .empty⟩] ∧
      (RemoteClient.cleanup c env name target).ret =
        PyResult.value (PyVal.str (env.resp 0).text)) ∧
    (env.stdin ≠ "y" →
      (RemoteClient.cleanup c env name target).trace = [] ∧
      (RemoteClient.cleanup c env name target).ret = PyResult.value PyVal.none) := by
  constructor <;> intro h <;> simp [RemoteClient.cleanup, h]

/-- C9 witness: declining the confirmation issues no request and returns
`None`. -/
theorem c9_cleanup_confirmation_witness :
    (RemoteClient.cleanup cW envNo "x" Option.none).trace = [] ∧
    (RemoteClient.cleanup cW envNo "x" Option.none).ret = PyResult.value PyVal.none :=
  (c9_cleanup_confirmation cW envNo "x" Option.none).2 (by decide)

theorem alookup_filter (l : List (String × QV)) (k : String)
    (p : String × QV → Bool)
    (hp : ∀ kv : String × QV, kv.1 = k → p kv = true) :
    alookup (l.filter p) k = alookup l k := by
  induction l with
  | nil => rfl
  | cons hd tl ih =>
    obtain ⟨k1, v1⟩ := hd
    by_cases hk : k1 = k
    · rw [List.filter_cons_of_pos (hp (k1, v1) hk)]
      simp [alookup, hk]
    · cases hfp : p (k1, v1) with
      | true =>
        rw [List.filter_cons_of_pos hfp]
        simp [alookup, hk, ih]
      | false =>
        rw [List.filter_cons_of_neg (by simp [hfp])]
        simp [alookup, hk, ih]

theorem alookup_dictUpdate_mem (nv : QV) (ps : List (String × QV))
    (k : String) (v : QV) (h : alookup ps k = some v) :
    alookup (dictUpdate [("name", nv)] ps) k = some v := by
  by_cases hk : k = "name"
  · subst hk
    simp [dictUpdate, alookup, updVal, h]
  · have hne : ¬ ("name" = k) := fun hh => hk hh.symm
    simp only [dictUpdate, List.map_cons, List.map_nil, List.cons_append,
      List.nil_append, alookup, if_neg hne]
    rw [show ∀ l : List (String × QV), [].append l = l from fun _ => rfl]
    rw [alookup_filter]
    · exact h
    · intro kv hkv
      rw [hkv]
      simp [alookup, hne]

theorem alookup_dictUpdate_name (nv : QV) (ps : List (String × QV)) :
    (alookup (dictUpdate [("name", nv)] ps) "name").isSome = true := by
  simp [dictUpdate, alookup, updVal]

/-- C7: the three evaluation modes use distinct endpoints with distinct
inputs: `calculate` and `instate` each issue one request to `/calculate`
resp. `/instate` whose query dict is `{'name': name}` updated with every
key-value pair of the supplied parameters mapping (so every supplied pair
is sent and a `'name'` key is always present), while `reinstate` issues
exactly one request to `/reinstate` carrying only `'name'` and the
calculation id under `'id'` and no parameter values of its own. -/
theorem c7_evaluation_endpoints (c : Client) (env : Env) (name : String)
    (ps : List (String × QV)) (calc_id : String) (options : Option Nat) :
    ((RemoteClient.calculate c env name ps).trace =
      [⟨.get, c.url ++ "/calculate", dictUpdate [("name", QV.str name)] ps,
        .empty⟩] ∧
      (∀ k v, alookup ps k = some v →
        alookup (dictUpdate [("name", QV.str name)] ps) k = some v) ∧
      (alookup (dictUpdate [("name", QV.str name)] ps) "name").isSome = true) ∧
    ((∀ r ∈ (RemoteClient.instate c env name ps options).trace,
        r.url = c.url ++ "/instate" ∧
        r.params = dictUpdate [("name", QV.str name)] ps) ∧
      (RemoteClient.instate c env name ps options).trace.length = 1) ∧
    ((RemoteClient.reinstate c env name calc_id).trace =
      [⟨.get, c.url ++ "/reinstate",
        [("name", QV.str name), ("id", QV.str calc_id)], .empty⟩]) := by
  refine ⟨⟨rfl, fun k v h => alookup_dictUpdate_mem _ ps k v h,
    alookup_dictUpdate_name _ ps⟩, ⟨?_, ?_⟩, rfl⟩
  · intro r hr
    cases options <;> simp [RemoteClient.instate] at hr <;> subst hr <;>
      exact ⟨rfl, rfl⟩
  · cases options <;> rfl

/-- C7 witness: `reinstate` at concrete arguments sends exactly the name
and the calculation id. -/
theorem c7_evaluation_endpoints_witness :
    (RemoteClient.reinstate cW envOK "n" "i5").trace =
      [⟨Meth.get, cW.url ++ "/reinstate",
        [("name", QV.str "n"), ("id", QV.str "i5")], Body.empty⟩] :=
  (c7_evaluation_endpoints cW envOK "n" [] "i5" Option.none).2.2

theorem optStep_types_sublist {α : Type} (o : Option α)
    (f : α → Request × String) (x : Option QV)
    (hf : ∀ b, reqType (f b).1 = x) (l1 l2 : List (Option QV))
    (h : l1.Sublist l2) :
    ((optStep o f).map (fun p => reqType p.1) ++ l1).Sublist (x :: l2) := by
  cases o with
  | none => simpa [optStep] using h.cons x
  | some b =>
    simp only [optStep, List.map_cons, List.map_nil, List.cons_append,
      List.nil_append, hf b]
    exact h.cons₂ x

theorem setupSteps_types_sublist (c : Client) (env : Env) (a : SetupArgs) :
    ((setupSteps c env a).map (fun p => reqType p.1)).Sublist canonTypes := by
  unfold setupSteps canonTypes
  simp only [List.map_append, List.append_assoc]
  refine optStep_types_sublist _ _ _ ?_ _ _
    (optStep_types_sublist _ _ _ ?_ _ _
      (optStep_types_sublist _ _ _ ?_ _ _
        (optStep_types_sublist _ _ _ ?_ _ _
          (optStep_types_sublist _ _ _ ?_ _ _
            (optStep_types_sublist _ _ _ ?_ _ _
              (optStep_types_sublist _ _ _ ?_ _ _ ?_))))))
  any_goals exact fun b => rfl
  split
  · exact List.Sublist.cons₂ _ (List.nil_sublist _)
  · exact List.nil_sublist _

theorem setupSteps_length (c : Client) (env : Env) (a : SetupArgs) :
    (setupSteps c env a).length ≤ 8 := by
  have h := (setupSteps_types_sublist c env a).length_le
  simpa [canonTypes] using h

theorem setup_trace_length (c : Client) (env : Env) (a : SetupArgs) :
    (RemoteClient.setup c env a).trace.length ≤ 9 := by
  obtain ⟨n, hn, htr⟩ := runSteps_trace_take env (setupSteps c env a) 0
  have h8 : (runSteps env 0 (setupSteps c env a)).1.length ≤ 8 := by
    rw [htr]
    simp only [List.length_map, List.length_take]
    have := setupSteps_length c env a
    omega
  rcases setup_trace_cases c env a with h | ⟨ec, h⟩ <;> rw [h]
  · omega
  · simp only [List.length_append, List.length_singleton]
    omega

theorem setup_trace_nodup (c : Client) (env : Env) (a : SetupArgs) :
    (RemoteClient.setup c env a).trace.Nodup := by
  obtain ⟨n, hn, htr⟩ := runSteps_trace_take env (setupSteps c env a) 0
  have hsub : ((runSteps env 0 (setupSteps c env a)).1.map reqType).Sublist
      canonTypes := by
    rw [htr, List.map_map, List.map_take]
    exact (List.take_sublist n _).trans (setupSteps_types_sublist c env a)
  have h1 : (runSteps env 0 (setupSteps c env a)).1.Nodup :=
    List.Nodup.of_map reqType (List.Nodup.sublist hsub (by decide))
  rcases setup_trace_cases c env a with h | ⟨ec, h⟩ <;> rw [h]
  · exact h1
  · refine List.Nodup.append h1 (List.nodup_singleton _) ?_
    intro x hx hx'
    rw [List.mem_singleton] at hx'
    subst hx'
    have hmem : reqType (energyReq c a ec) ∈ canonTypes :=
      hsub.subset (List.mem_map_of_mem reqType hx)
    rw [show reqType (energyReq c a ec) = some (QV.str "energy_calculation")
      from rfl] at hmem
    revert hmem
    decide

/-- C2 counterexample: `cleanup` with the confirmation declined performs
zero HTTP requests, not one. -/
theorem c2_counterexample :
    ¬ ((run cW envNo (Args.cleanup "x" Option.none)).trace.length = 1) := by
  decide

/-- C2 (amended): every public method except `setup` and `cleanup` performs
exactly one synchronous HTTP request per invocation; `cleanup` performs one
exactly when the confirmation input is `'y'` and none otherwise; `setup`
performs at most nine — one per supplied component until the first failing
response — and never issues the same request twice within a call (no
retries). -/
theorem c2_request_counts (c : Client) (env : Env) :
    (∀ a : Args, a.method ≠ Method.setup → a.method ≠ Method.cleanup →
      (run c env a).trace.length = 1) ∧
    (∀ (name : String) (target : Option String),
      (RemoteClient.cleanup c env name target).trace.length =
        if env.stdin = "y" then 1 else 0) ∧
    (∀ a : SetupArgs, (RemoteClient.setup c env a).trace.length ≤ 9 ∧
      (RemoteClient.setup c env a).trace.Nodup) := by
  refine ⟨?_, ?_, fun a => ⟨setup_trace_length c env a, setup_trace_nodup c env a⟩⟩
  · intro a h1 h2
    cases a
    case setup sa => exact absurd rfl h1
    case cleanup n t => exact absurd rfl h2
    case instate n ps opts => cases opts <;> rfl
    all_goals rfl
  · intro name target
    by_cases h : env.stdin = "y" <;> simp [cleanup_trace, h]

/-- C2 witness: a concrete `get_cost` invocation performs exactly one
request. -/
theorem c2_request_counts_witness :
    (run cW envOK (Args.get_cost "n")).trace.length = 1 :=
  (c2_request_counts cW envOK).1 (Args.get_cost "n") (by decide) (by decide)

theorem runSteps_all_ok (env : Env) (steps : List (Request × String)) :
    ∀ idx, (∀ j, j < steps.length →
        strStarts (env.resp (idx + j)).text "OK" = true) →
      runSteps env idx steps =
        (steps.map Prod.fst,
         Sum.inr (idx + steps.length, successList env idx steps)) := by
  induction steps with
  | nil => intro idx _; simp [runSteps, successList]
  | cons hd tl ih =>
    intro idx h
    obtain ⟨req, key⟩ := hd
    have h0 : strStarts (env.resp idx).text "OK" = true := by
      simpa using h 0 (by simp)
    have hrest : ∀ j, j < tl.length →
        strStarts (env.resp (idx + 1 + j)).text "OK" = true := by
      intro j hj
      have := h (j + 1) (by simpa using Nat.succ_lt_succ hj)
      simpa [Nat.add_assoc, Nat.add_comm 1 j] using this
    simp [runSteps, h0, ih (idx + 1) hrest, successList, Nat.add_assoc,
      Nat.add_comm 1 tl.length]

theorem runSteps_first_fail (env : Env) (steps : List (Request × String)) :
    ∀ idx j, j < steps.length →
      strStarts (env.resp (idx + j)).text "OK" = false →
      (∀ k, k < j → strStarts (env.resp (idx + k)).text "OK" = true) →
      runSteps env idx steps =
        ((steps.take (j + 1)).map Prod.fst,
         Sum.inl (env.resp (idx + j)).text) := by
  induction steps with
  | nil => intro idx j hj _ _; simp at hj
  | cons hd tl ih =>
    intro idx j hj hf hb
    obtain ⟨req, key⟩ := hd
    cases j with
    | zero =>
      have h0 : strStarts (env.resp idx).text "OK" = false := by simpa using hf
      simp [runSteps, h0]
    | succ m =>
      have h0 : strStarts (env.resp idx).text "OK" = true := by
        simpa using hb 0 (Nat.succ_pos m)
      have hrec := ih (idx + 1) m (by simpa using Nat.lt_of_succ_lt_succ hj)
        (by simpa [Nat.add_assoc, Nat.add_comm 1 m] using hf)
        (fun k hk => by
          simpa [Nat.add_assoc, Nat.add_comm 1 k] using hb (k + 1) (Nat.succ_lt_succ hk))
      simp [runSteps, h0, hrec, Nat.add_assoc, Nat.add_comm 1 m]

/-- C8 counterexample: with no component supplied, `init_db` false and the
unrecognized `energy_calculation` value `'invalid'`, every issued request
(there are none) succeeded, yet `setup` returns the fixed validation
message instead of a newline followed by the pretty-printed success
dict. -/
theorem c8_counterexample :
    (RemoteClient.setup cW envOK saInv).trace = [] ∧
    (RemoteClient.setup cW envOK saInv).ret =
      PyResult.value (PyVal.str energyTypeMsg) ∧
    energyTypeMsg ≠
      "\n" ++ envOK.pformat (successList envOK 0 (setupSteps cW envOK saInv)) := by
  refine ⟨rfl, rfl, ?_⟩
  decide

/-- C8 (amended): `setup` issues its component requests in the fixed source
order epw, weather_data, idf, model, parameters, lca_calculation,
cost_calculation, database (each exactly when supplied, database when
`init_db`, as listed by `setupSteps`); at the first response whose text
does not start with `'OK'` it returns that text immediately, issuing none
of the remaining requests; when every component response succeeds and
`energy_calculation` is absent or empty it returns a newline followed by
the pretty-printed dict of success messages; a non-empty recognized
`energy_calculation` additionally issues the trailing energy request and,
on its success, includes its message in the returned dict (a non-empty
unrecognized value instead returns the fixed validation message, see
C10). -/
theorem c8_setup_sequence (c : Client) (env : Env) (a : SetupArgs) :
    (∀ j, j < (setupSteps c env a).length →
      strStarts (env.resp j).text "OK" = false →
      (∀ k, k < j → strStarts (env.resp k).text "OK" = true) →
      (RemoteClient.setup c env a).trace =
        ((setupSteps c env a).take (j + 1)).map Prod.fst ∧
      (RemoteClient.setup c env a).ret =
        PyResult.value (PyVal.str (env.resp j).text)) ∧
    ((∀ j, j < (setupSteps c env a).length →
        strStarts (env.resp j).text "OK" = true) →
      (a.energy_calculation = Option.none ∨ a.energy_calculation = some "") →
      (RemoteClient.setup c env a).trace = (setupSteps c env a).map Prod.fst ∧
      (RemoteClient.setup c env a).ret = PyResult.value (PyVal.str
        ("\n" ++ env.pformat (successList env 0 (setupSteps c env a))))) ∧
    (∀ ec, a.energy_calculation = some ec →
      ec ∈ (["simulation", "steady_state"] : List String) →
      (∀ j, j < (setupSteps c env a).length →
        strStarts (env.resp j).text "OK" = true) →
      strStarts (env.resp (setupSteps c env a).length).text "OK" = true →
      (RemoteClient.setup c env a).trace =
        (setupSteps c env a).map Prod.fst ++ [energyReq c a ec] ∧
      (RemoteClient.setup c env a).ret = PyResult.value (PyVal.str
        ("\n" ++ env.pformat (successList env 0 (setupSteps c env a) ++
          [("Energy Calculation",
            (env.resp (setupSteps c env a).length).text)])))) := by
  refine ⟨?_, ?_, ?_⟩
  · intro j hj hf hb
    have hrun := runSteps_first_fail env (setupSteps c env a) 0 j hj
      (by simpa using hf) (fun k hk => by simpa using hb k hk)
    simp only [Nat.zero_add] at hrun
    unfold RemoteClient.setup
    rw [hrun]
    exact ⟨rfl, rfl⟩
  · intro hok hec
    have hrun := runSteps_all_ok env (setupSteps c env a) 0
      (fun j hj => by simpa using hok j hj)
    simp only [Nat.zero_add] at hrun
    unfold RemoteClient.setup
    rw [hrun]
    rcases hec with h | h <;> simp [setupEnergy, h]
  · intro ec hec hmem hok hoken
    have hrun := runSteps_all_ok env (setupSteps c env a) 0
      (fun j hj => by simpa using hok j hj)
    simp only [Nat.zero_add] at hrun
    have hne : ec ≠ "" := by
      simp only [List.mem_cons, List.mem_singleton] at hmem
      rcases hmem with h | h | h
      · subst h; decide
      · subst h; decide
      · simp at h
    unfold RemoteClient.setup
    rw [hrun]
    simp [setupEnergy, hec, hne, hmem, hoken, energyReq]

/-- C8 witness: `setup` with only the default database-initialization
component, all responses succeeding and no `energy_calculation`, issues
exactly the component requests and returns the pretty-printed success
dict. -/
theorem c8_setup_sequence_witness :
    (RemoteClient.setup cW envOK { name := "x" }).trace =
      (setupSteps cW envOK { name := "x" }).map Prod.fst ∧
    (RemoteClient.setup cW envOK { name := "x" }).ret =
      PyResult.value (PyVal.str ("\n" ++
        envOK.pformat (successList envOK 0 (setupSteps cW envOK { name := "x" })))) :=
  (c8_setup_sequence cW envOK { name := "x" }).2.1 (by decide) (Or.inl rfl)

/-- C10: when `setup` gets a non-empty `energy_calculation` that is neither
`'simulation'` nor `'steady_state'` (and the earlier component responses
succeed so that the run reaches the validation), it returns the fixed
message, its trace is exactly the earlier component requests — including
the database request whenever `init_db` is true — and no request with type
`energy_calculation` is ever sent. -/
theorem c10_energy_validation_order (c : Client) (env : Env) (a : SetupArgs)
    (ec : String) (hec : a.energy_calculation = some ec) (hne : ec ≠ "")
    (hinv : ec ∉ (["simulation", "steady_state"] : List String))
    (hok : ∀ j, j < (setupSteps c env a).length →
      strStarts (env.resp j).text "OK" = true) :
    (RemoteClient.setup c env a).ret = PyResult.value (PyVal.str energyTypeMsg) ∧
    (RemoteClient.setup c env a).trace = (setupSteps c env a).map Prod.fst ∧
    (a.init_db = true →
      (⟨.post, c.url ++ "/setup",
        [("name", QV.str a.name), ("type", QV.str "database")], .empty⟩ : Request) ∈
        (RemoteClient.setup c env a).trace) ∧
    (∀ r ∈ (RemoteClient.setup c env a).trace,
      reqType r ≠ some (QV.str "energy_calculation")) := by
  have hrun := runSteps_all_ok env (setupSteps c env a) 0
    (fun j hj => by simpa using hok j hj)
  simp only [Nat.zero_add] at hrun
  have hmain : (RemoteClient.setup c env a).ret =
      PyResult.value (PyVal.str energyTypeMsg) ∧
      (RemoteClient.setup c env a).trace = (setupSteps c env a).map Prod.fst := by
    unfold RemoteClient.setup
    rw [hrun]
    simp [setupEnergy, hec, hne, hinv]
  refine ⟨hmain.1, hmain.2, ?_, ?_⟩
  · intro hdb
    rw [hmain.2]
    exact List.mem_map_of_mem Prod.fst
      (show ((⟨.post, c.url ++ "/setup",
        [("name", QV.str a.name), ("type", QV.str "database")], .empty⟩,
        "Database") : Request × String) ∈ setupSteps c env a by
          simp [setupSteps, hdb])
  · intro r hr
    rw [hmain.2] at hr
    obtain ⟨x, hx, rfl⟩ := List.mem_map.mp hr
    intro hcontra
    have hmem : reqType x.1 ∈ canonTypes :=
      (setupSteps_types_sublist c env a).subset
        (List.mem_map_of_mem (fun p => reqType p.1) hx)
    rw [hcontra] at hmem
    revert hmem
    decide

/-- C10 witness: concrete `setup` with the default `init_db` and the
unrecognized value `'bogus'` returns the fixed validation message. -/
theorem c10_energy_validation_order_witness :
    (RemoteClient.setup cW envOK saW).ret =
      PyResult.value (PyVal.str energyTypeMsg) :=
  (c10_energy_validation_order cW envOK saW "bogus" rfl (by decide) (by decide)
    (by decide)).1

